import Mathlib

/-!
Shallow embedding of `validate-token-rust` (`src/src/lib.rs`), a Cloudflare
Worker that gates login requests behind an HMAC proof token.

Modelling conventions:
* Rust `f64` timestamps are modelled as `ℚ`.  The worker only parses finite
  decimal/scientific literals out of tokens and compares / re-serializes
  them; on that fragment exact rational arithmetic mirrors the `f64`
  behaviour of every concrete value used below ("inf"/"NaN" and rounding of
  non-representable decimals are outside the modelled fragment).
* HMAC-SHA256 + base64 come from external crates (`hmac`, `sha2`, `base64`);
  they are abstracted as an arbitrary function `hmacB64 : String → String →
  String` (key, message ↦ encoded digest), which every theorem quantifies
  over.
* `Date::now()` is external; the current time in seconds is passed as an
  explicit `now : ℚ`.
* The Worker runtime (`Request`, `Env`, `Fetch`) is modelled by `ReqModel`
  (raw query string and a header lookup) plus a `FetchOutcome` sum that
  records exactly how the handler terminates: a Rust panic from `unwrap`, a
  propagated `Err` from the `?` operator, a locally built `Response`, a
  pass-through forward of the untouched request, or a forward of the
  rewritten request.
-/

/-- Decimal digits of a char list folded into a natural number
(used by the model of Rust's `str::parse::<f64>`). -/
def digitsToNat (ds : List Char) : Nat :=
  ds.foldl (fun acc c => acc * 10 + (c.toNat - 48)) 0

/-- Modelled from Rust `str::parse::<f64>` on the finite-decimal fragment:
optional sign, integer digits, optional fractional part, optional
`e`/`E` exponent with optional sign; at least one significand digit is
required and no trailing garbage is allowed.  `inf`/`NaN` spellings are
outside the modelled fragment and return `none`. -/
def parseF64 (s : String) : Option ℚ :=
  let cs := s.toList
  let sgn : ℚ := match cs with
    | '-' :: _ => -1
    | _ => 1
  let cs := match cs with
    | '-' :: rest => rest
    | '+' :: rest => rest
    | rest => rest
  let intDs := cs.takeWhile Char.isDigit
  let cs := cs.dropWhile Char.isDigit
  let fracDs := match cs with
    | '.' :: rest => rest.takeWhile Char.isDigit
    | _ => []
  let cs := match cs with
    | '.' :: rest => rest.dropWhile Char.isDigit
    | rest => rest
  if intDs.isEmpty && fracDs.isEmpty then none
  else
    let mant : ℚ :=
      sgn * Rat.divInt (digitsToNat intDs * 10 ^ fracDs.length + digitsToNat fracDs)
        (10 ^ fracDs.length)
    match cs with
    | [] => some mant
    | e :: rest =>
      if e = 'e' ∨ e = 'E' then
        let eneg : Bool := match rest with
          | '-' :: _ => true
          | _ => false
        let rest := match rest with
          | '-' :: r => r
          | '+' :: r => r
          | r => r
        let eDs := rest.takeWhile Char.isDigit
        let rest := rest.dropWhile Char.isDigit
        if eDs.isEmpty ∨ ¬ rest.isEmpty then none
        else if eneg then
          some (Rat.divInt mant.num ((mant.den : Int) * 10 ^ digitsToNat eDs))
        else some (mant * ((10 : ℚ) ^ digitsToNat eDs))
      else none

/-- Modelled from Rust's `Display` for `f64` as invoked by the format of
`client_ip` and `timestamp` in `generate_hash`: integral values print with
no fractional part (`1000.0` prints as `1000`), non-integral values with a
terminating decimal expansion print sign, integer part, `.`, and the
fraction digits without trailing zeros.  (Rational values with a
non-terminating expansion cannot be produced by `parseF64` and get a
fallback spelling.) -/
def ratDisplay (t : ℚ) : String :=
  let sgn := if t < 0 then "-" else ""
  let q := if t < 0 then -t else t
  if q.den = 1 then sgn ++ toString q.num
  else
    match (List.range (q.den + 1)).find? (fun k => 10 ^ k % q.den == 0) with
    | some k =>
      let scaled := q.num.toNat * (10 ^ k / q.den)
      let ip := scaled / 10 ^ k
      let fp := scaled % 10 ^ k
      let fpStr := toString fp
      let pad := String.mk (List.replicate (k - fpStr.length) '0')
      sgn ++ toString ip ++ "." ++ pad ++ fpStr
    | none => sgn ++ toString q.num ++ "/" ++ toString q.den

/-- UTF-8 bytes of a string as naturals; mirrors Rust `str::bytes()`
(and `str::len()` for its length). -/
def strBytes (s : String) : List Nat :=
  s.toUTF8.data.toList.map (fun b => b.toNat)

/-- Embedding of `constant_time_compare` (src/src/lib.rs:178-188): reject on
byte-length mismatch, otherwise fold `acc | (a ^ b)` over the zipped bytes
and accept iff the accumulator is zero. -/
def constant_time_compare (a b : String) : Bool :=
  if (strBytes a).length ≠ (strBytes b).length then false
  else
    ((strBytes a).zip (strBytes b)).foldl (fun acc p => acc ||| (p.1 ^^^ p.2)) 0 == 0

/-- Embedding of `generate_hash` (src/src/lib.rs:170-176): HMAC-SHA256 over
`"<client_ip>:<timestamp>"` keyed by the secret, base64-encoded; the
timestamp is the re-serialized `f64`, not the submitted substring.  The
HMAC+base64 pipeline itself is the abstracted external `hmacB64`. -/
def generate_hash (hmacB64 : String → String → String)
    (client_ip hmac_secret : String) (timestamp : ℚ) : String :=
  hmacB64 hmac_secret (client_ip ++ ":" ++ ratDisplay timestamp)

/-- Embedding of `verify_hmac_token` (src/src/lib.rs:143-168): split the
token on `-` into exactly two parts, parse part 0 as an `f64` timestamp,
reject when `now - timestamp > validity_seconds`, then compare the
recomputed digest with part 1 in constant time. -/
def verify_hmac_token (hmacB64 : String → String → String) (now : ℚ)
    (client_ip provided_token secret : String) (validity_seconds : ℚ) : Bool :=
  let token_parts := provided_token.splitOn "-"
  if token_parts.length ≠ 2 then false
  else
    match parseF64 (token_parts.headD "") with
    | none => false
    | some timestamp =>
      let provided_hash := token_parts.getD 1 ""
      if now - timestamp > validity_seconds then false
      else
        constant_time_compare
          (generate_hash hmacB64 client_ip secret timestamp) provided_hash

/-- Embedding of `extract_client_ip` (src/src/lib.rs:125-141): the
`CF-Connecting-IP` header when present (no emptiness check), else the first
comma-separated entry of `X-Forwarded-For` trimmed, else `"127.0.0.1"`.
Headers are a lookup function, `none` meaning the header is absent. -/
def extract_client_ip (headers : String → Option String) : String :=
  match headers "CF-Connecting-IP" with
  | some v => v
  | none =>
    match headers "X-Forwarded-For" with
    | some xff => ((xff.splitOn ",").headD "").trim
    | none => "127.0.0.1"

/-- Modelled from Rust `str::split_once('=')` as used on each `&`-component
of the query string: `none` when the component contains no `=`, otherwise
the text before the first `=` and everything after it. -/
def splitOnceEq (s : String) : Option (String × String) :=
  match s.splitOn "=" with
  | [_] => none
  | k :: rest => some (k, String.intercalate "=" rest)
  | [] => none

/-- Insertion into the query map with Rust `HashMap` semantics: a later
pair with an existing key overwrites the earlier value.  The map is
represented as an association list with pairwise-distinct keys; its order
stands in for the (unspecified) `HashMap` iteration order, and every
theorem below depends only on membership, not on that order. -/
def insertPair (m : List (String × String)) (k v : String) :
    List (String × String) :=
  if m.any (fun p => p.1 == k) then
    m.map (fun p => if p.1 == k then (k, v) else p)
  else m ++ [(k, v)]

/-- One step of the query-pair collection: `none` (an already-hit panic,
or a component without `=`, whose `unwrap` panics) is absorbing. -/
def queryStep (acc : Option (List (String × String))) (comp : String) :
    Option (List (String × String)) :=
  match acc, splitOnceEq comp with
  | some m, some kv => some (insertPair m kv.1 kv.2)
  | _, _ => none

/-- Embedding of the query-pair collection in `fetch`
(src/src/lib.rs:28-36): split the raw query on `&`, split each component
once on `=` — `unwrap`ping, so a component without `=` is a panic
(`none`) — and collect into a map. -/
def parseQueryPairs (raw : String) : Option (List (String × String)) :=
  (raw.splitOn "&").foldl queryStep (some [])

/-- Lookup in the query map (Rust `HashMap::get`). -/
def qLookup (m : List (String × String)) (k : String) : Option String :=
  (m.find? (fun p => p.1 == k)).map (fun p => p.2)

/-- The parts of a Worker `Request` the handler consumes: the raw query
string of the URL (`none` when the URL has no `?`) and a header lookup. -/
structure ReqModel where
  rawQuery : Option String
  headers : String → Option String

/-- How one run of the `fetch` handler terminates. -/
inductive FetchOutcome where
  /-- A Rust panic, from `split_once('=').unwrap()` on a query component
  with no `=`. -/
  | panicked : FetchOutcome
  /-- An `Err` propagated out of the handler by `?` (the runtime turns it
  into a failed request, not an HTTP response built by this code). -/
  | errored : String → FetchOutcome
  /-- A `Response` built locally with this status and HTML body. -/
  | response : Nat → String → FetchOutcome
  /-- `Fetch::Request(req).send()` on the untouched original request. -/
  | forwardOriginal : FetchOutcome
  /-- Forward of the rewritten request: the outbound query pairs and the
  optional `Set-Cookie` value added to the relayed response. -/
  | forwardRewritten : List (String × String) → Option String → FetchOutcome
deriving DecidableEq

/-- Embedding of the `fetch` event handler (src/src/lib.rs:12-123).
`hmacB64` abstracts the HMAC-SHA256+base64 pipeline, `now` the value of
`Date::now()/1000.0`, `secret` the resolved `HMAC_SECRET`, and `validity`
the resolved `TOKEN_VALIDITY_SECONDS` (env override or the 300000.0
default). -/
def fetch (hmacB64 : String → String → String) (now : ℚ)
    (secret : String) (validity : ℚ) (req : ReqModel) : FetchOutcome :=
  if secret = "" then .response 400 "missing secret"
  else
    match parseQueryPairs (req.rawQuery.getD "") with
    | none => .panicked
    | some query_pairs =>
      match qLookup query_pairs "function_id" with
      | none => .forwardOriginal
      | some id =>
        if id = "APPS_LOGIN_DEFAULT" then
          match qLookup query_pairs "oait" with
          | none => .errored ""
          | some oait_param =>
            if oait_param = "" then .response 400 "Missing oait parameter"
            else
              let tokens := oait_param.splitOn "++"
              if tokens.length < 2 then .response 403 "Invalid token format"
              else
                let forms_token := tokens.headD ""
                let cloudflare_token := (tokens.getD 1 "").trim
                let access_token := tokens.getD 2 ""
                let client_ip := extract_client_ip req.headers
                if verify_hmac_token hmacB64 now client_ip cloudflare_token
                    secret validity then
                  let remaining := query_pairs.filter (fun p => p.1 ≠ "oait")
                  let new_query := remaining ++
                    (if forms_token = "" then []
                     else [("oait", forms_token)])
                  let cookie :=
                    if access_token = "" then none
                    else some ("CF_Authorization=" ++ access_token ++
                      "; Path=/; HttpOnly; Secure; SameSite=Strict")
                  .forwardRewritten new_query cookie
                else .response 403 "Invalid or expired token"
        else .forwardOriginal

set_option maxRecDepth 8000

example : parseF64 "1000" = some 1000 := by with_unfolding_all decide
example : parseF64 "1000.0" = some 1000 := by with_unfolding_all decide
example : parseF64 "1e3" = some 1000 := by with_unfolding_all decide
example : parseF64 "" = none := by with_unfolding_all decide
example : parseF64 "12.5" = some (Rat.divInt 25 2) := by with_unfolding_all decide
example : ratDisplay 1000 = "1000" := by with_unfolding_all decide
example : ratDisplay (Rat.divInt 25 2) = "12.5" := by with_unfolding_all decide
example : constant_time_compare "abc" "abc" = true := by with_unfolding_all decide
example : constant_time_compare "abc" "abd" = false := by with_unfolding_all decide
example : constant_time_compare "abc" "ab" = false := by with_unfolding_all decide

example :
    fetch (fun k m => "H." ++ k ++ "." ++ m) 1000 "s" 300000
      ⟨none, fun _ => none⟩ = .panicked := by
  with_unfolding_all decide

example :
    fetch (fun k m => "H." ++ k ++ "." ++ m) 1000 "s" 300000
      ⟨some "a=1", fun _ => none⟩ = .forwardOriginal := by
  with_unfolding_all decide

example :
    fetch (fun k m => "H." ++ k ++ "." ++ m) 1000 "s" 300000
      ⟨some "function_id=OTHER&oait=x", fun _ => none⟩ = .forwardOriginal := by
  with_unfolding_all decide

example :
    fetch (fun k m => "H." ++ k ++ "." ++ m) 1000 "s" 300000
      ⟨some "function_id=APPS_LOGIN_DEFAULT", fun _ => none⟩ = .errored "" := by
  with_unfolding_all decide

example :
    fetch (fun k m => "H." ++ k ++ "." ++ m) 1000 "s" 300000
      ⟨some "function_id=APPS_LOGIN_DEFAULT&oait=", fun _ => none⟩
      = .response 400 "Missing oait parameter" := by
  with_unfolding_all decide

example :
    fetch (fun k m => "H." ++ k ++ "." ++ m) 1000 "s" 300000
      ⟨some "function_id=APPS_LOGIN_DEFAULT&oait=abc", fun _ => none⟩
      = .response 403 "Invalid token format" := by
  with_unfolding_all decide

example :
    fetch (fun k m => "H." ++ k ++ "." ++ m) 1000 "s" 300000
      ⟨some "function_id=APPS_LOGIN_DEFAULT&oait=++app", fun _ => none⟩
      = .response 403 "Invalid or expired token" := by
  with_unfolding_all decide

example :
    fetch (fun k m => "H." ++ k ++ "." ++ m) 1000 "s" 300000
      ⟨some "function_id=APPS_LOGIN_DEFAULT&oait=app++1000-H.s.127.0.0.1:1000++acc&x=1",
       fun _ => none⟩
      = .forwardRewritten
          [("function_id", "APPS_LOGIN_DEFAULT"), ("x", "1"), ("oait", "app")]
          (some "CF_Authorization=acc; Path=/; HttpOnly; Secure; SameSite=Strict") := by
  with_unfolding_all decide

/-- Auxiliary: a natural-number `or` is zero exactly when both sides are. -/
theorem lorEqZeroIff (a b : Nat) : a ||| b = 0 ↔ a = 0 ∧ b = 0 := by
  constructor
  · intro h
    have key : ∀ i, a.testBit i = false ∧ b.testBit i = false := by
      intro i
      have hbit := congrArg (fun n => Nat.testBit n i) h
      simpa [Nat.testBit_lor] using hbit
    exact ⟨Nat.zero_of_testBit_eq_false (fun i => (key i).1),
      Nat.zero_of_testBit_eq_false (fun i => (key i).2)⟩
  · rintro ⟨rfl, rfl⟩
    simp

/-- Auxiliary: the or-of-xors fold in `constant_time_compare` ends at zero
exactly when the accumulator started at zero and every zipped byte pair is
equal — so the outcome does not depend on where a first mismatch sits. -/
theorem foldlOrXorEqZero (l : List (Nat × Nat)) (a : Nat) :
    l.foldl (fun acc p => acc ||| (p.1 ^^^ p.2)) a = 0 ↔
      a = 0 ∧ ∀ p ∈ l, p.1 = p.2 := by
  induction l generalizing a with
  | nil => simp
  | cons x xs ih =>
    rw [List.foldl_cons, ih, lorEqZeroIff, Nat.xor_eq_zero]
    constructor
    · rintro ⟨⟨h1, h2⟩, h3⟩
      exact ⟨h1, by
        intro p hp
        rcases List.mem_cons.mp hp with rfl | hmem
        · exact h2
        · exact h3 p hmem⟩
    · rintro ⟨h1, h2⟩
      exact ⟨⟨h1, h2 x (List.mem_cons_self x xs)⟩,
        fun p hp => h2 p (List.mem_cons_of_mem x hp)⟩

/-- Auxiliary: zipping two equal-length lists gives pointwise-equal pairs
exactly when the lists are equal. -/
theorem zipPointwiseEq (a : List Nat) :
    ∀ b : List Nat, a.length = b.length →
      ((∀ p ∈ a.zip b, p.1 = p.2) ↔ a = b) := by
  induction a with
  | nil =>
    intro b hb
    cases b with
    | nil => simp
    | cons y ys => simp at hb
  | cons x xs ih =>
    intro b hb
    cases b with
    | nil => simp at hb
    | cons y ys =>
      have hlen : xs.length = ys.length := by simpa using hb
      rw [List.zip_cons_cons]
      constructor
      · intro hall
        have hx : x = y := hall (x, y) (List.mem_cons_self _ _)
        have hxs : xs = ys :=
          (ih ys hlen).mp (fun p hp => hall p (List.mem_cons_of_mem _ hp))
        rw [hx, hxs]
      · intro he
        injection he with he1 he2
        subst he1; subst he2
        intro p hp
        rcases List.mem_cons.mp hp with rfl | hmem
        · rfl
        · exact (ih xs rfl).mpr rfl p hmem

/-- Auxiliary: `constant_time_compare` accepts exactly the byte-for-byte
equal strings (a length mismatch already accepts nothing). -/
theorem constantTimeCompareTrueIff (a b : String) :
    constant_time_compare a b = true ↔ strBytes a = strBytes b := by
  unfold constant_time_compare
  by_cases hlen : (strBytes a).length = (strBytes b).length
  · rw [if_neg (by simpa using hlen)]
    rw [beq_iff_eq, foldlOrXorEqZero]
    constructor
    · rintro ⟨-, h⟩
      exact (zipPointwiseEq _ _ hlen).mp h
    · intro h
      exact ⟨rfl, (zipPointwiseEq _ _ hlen).mpr h⟩
  · rw [if_pos (by simpa using hlen)]
    constructor
    · intro h
      exact absurd h (by simp)
    · intro h
      exact absurd (congrArg List.length h) hlen

/-- C5: `constant_time_compare` is `false` whenever the byte lengths
differ, `true` on every pair of equal strings, and for equal byte lengths
it is `true` exactly when the strings agree byte for byte (the
or-accumulated xor of corresponding byte pairs is zero), independent of
the position of any mismatch. -/
theorem C5_constant_time_compare_spec (a b : String) :
    ((strBytes a).length ≠ (strBytes b).length →
      constant_time_compare a b = false)
    ∧ constant_time_compare a a = true
    ∧ ((strBytes a).length = (strBytes b).length →
      (constant_time_compare a b = true ↔ strBytes a = strBytes b)) := by
  refine ⟨?_, ?_, ?_⟩
  · intro hne
    unfold constant_time_compare
    rw [if_pos (by simpa using hne)]
  · exact (constantTimeCompareTrueIff a a).mpr rfl
  · intro _
    exact constantTimeCompareTrueIff a b

/-- C5 witness: concrete evaluations through `C5_constant_time_compare_spec`. -/
theorem C5_constant_time_compare_spec_witness :
    constant_time_compare "ab" "c" = false
    ∧ constant_time_compare "ab" "ab" = true
    ∧ constant_time_compare "ab" "ac" ≠ true :=
  ⟨(C5_constant_time_compare_spec "ab" "c").1 (by with_unfolding_all decide),
   (C5_constant_time_compare_spec "ab" "ab").2.1,
   fun h => by
    have hbytes :=
      ((C5_constant_time_compare_spec "ab" "ac").2.2
        (by with_unfolding_all decide)).mp h
    exact absurd hbytes (by with_unfolding_all decide)⟩

/-- C1: `verify_hmac_token` rejects only on the upper bound of the token
age.  For every proof token `s ++ "-" ++ hsh` whose timestamp parses and
lies in the future (`now < ts`), verification succeeds whenever the
recomputed digest matches the provided hash; the future timestamp alone
never causes rejection (the validity window being a duration, `0 ≤
validity`). -/
theorem C1_future_timestamp_accepted (hmacB64 : String → String → String)
    (now ts validity : ℚ) (ip secret s hsh : String)
    (hsplit : (s ++ "-" ++ hsh).splitOn "-" = [s, hsh])
    (hparse : parseF64 s = some ts)
    (hfuture : now < ts) (hval : 0 ≤ validity)
    (hmatch :
      constant_time_compare (generate_hash hmacB64 ip secret ts) hsh = true) :
    verify_hmac_token hmacB64 now ip (s ++ "-" ++ hsh) secret validity
      = true := by
  unfold verify_hmac_token
  rw [hsplit]
  have hwin : ¬ now - ts > validity := by
    intro hgt
    have : now - ts < 0 := by linarith
    linarith
  simp only [List.length_cons, List.length_nil, List.headD_cons, hparse,
    List.getD, List.get?, Option.getD_some]
  rw [if_neg (by decide), if_neg hwin]
  exact hmatch

/-- C1 witness: a token timestamped strictly in the future of `now = 0`
with a matching digest verifies. -/
theorem C1_future_timestamp_accepted_witness :
    verify_hmac_token (fun k m => "H." ++ k ++ "." ++ m) 0 "a" "2-H.k.a:2"
      "k" 0 = true :=
  C1_future_timestamp_accepted (fun k m => "H." ++ k ++ "." ++ m) 0 2 0
    "a" "k" "2" "H.k.a:2"
    (by with_unfolding_all decide) (by with_unfolding_all decide)
    (by with_unfolding_all decide) le_rfl (by with_unfolding_all decide)

/-- C2: for every client IP, secret, validity window and proof token whose
timestamp part parses to `ts` with `now - ts > validity`,
`verify_hmac_token` returns `false`, whatever the provided digest is. -/
theorem C2_expired_token_rejected (hmacB64 : String → String → String)
    (now ts validity : ℚ) (ip secret tok s hsh : String)
    (hsplit : tok.splitOn "-" = [s, hsh])
    (hparse : parseF64 s = some ts)
    (hexp : now - ts > validity) :
    verify_hmac_token hmacB64 now ip tok secret validity = false := by
  unfold verify_hmac_token
  rw [hsplit]
  simp only [List.length_cons, List.length_nil, List.headD_cons, hparse]
  rw [if_neg (by decide), if_pos hexp]

/-- C2 witness: at `now = 1000` a token timestamped `1` with window `0`
is rejected even though its digest is exactly the recomputed one. -/
theorem C2_expired_token_rejected_witness :
    verify_hmac_token (fun k m => "H." ++ k ++ "." ++ m) 1000 "a"
      "1-H.k.a:1" "k" 0 = false :=
  C2_expired_token_rejected (fun k m => "H." ++ k ++ "." ++ m) 1000 1 0
    "a" "k" "1-H.k.a:1" "1" "H.k.a:1"
    (by with_unfolding_all decide) (by with_unfolding_all decide)
    (by with_unfolding_all decide)

/-- Auxiliary: a hit panic is absorbing for the query-pair fold. -/
theorem foldlQueryStepNone (l : List String) :
    l.foldl queryStep none = none := by
  induction l with
  | nil => rfl
  | cons x xs ih =>
    rw [List.foldl_cons]
    have hstep : queryStep none x = none := by
      unfold queryStep
      cases splitOnceEq x <;> rfl
    rw [hstep, ih]

/-- Auxiliary: the query-pair fold panics as soon as any component has no
`=`, whatever the accumulator was. -/
theorem foldlQueryStepBad (l : List String) (comp : String)
    (hbad : splitOnceEq comp = none) :
    ∀ acc, comp ∈ l → l.foldl queryStep acc = none := by
  induction l with
  | nil =>
    intro acc hmem
    exact absurd hmem (List.not_mem_nil comp)
  | cons x xs ih =>
    intro acc hmem
    rw [List.foldl_cons]
    rcases List.mem_cons.mp hmem with rfl | hmem
    · have hstep : queryStep acc comp = none := by
        unfold queryStep
        rw [hbad]
        cases acc <;> rfl
      rw [hstep, foldlQueryStepNone]
    · exact ih (queryStep acc x) hmem

/-- C9: whenever the raw query string has a `&`-component without `=`
(splitting the component on `=` returns it whole), the handler panics on
`split_once('=').unwrap()` and produces no HTTP response at all (given the
secret is non-empty, which is checked before the parse). -/
theorem C9_query_component_without_eq_panics
    (hmacB64 : String → String → String) (now validity : ℚ)
    (secret : String) (req : ReqModel) (comp : String)
    (hsec : secret ≠ "")
    (hmem : comp ∈ (req.rawQuery.getD "").splitOn "&")
    (hnoeq : comp.splitOn "=" = [comp]) :
    fetch hmacB64 now secret validity req = .panicked := by
  have hbad : splitOnceEq comp = none := by
    unfold splitOnceEq
    rw [hnoeq]
  have hparse : parseQueryPairs (req.rawQuery.getD "") = none := by
    unfold parseQueryPairs
    exact foldlQueryStepBad _ comp hbad _ hmem
  unfold fetch
  rw [if_neg hsec, hparse]

/-- C9 witness: the query `a=1&flag` panics the handler. -/
theorem C9_query_component_without_eq_panics_witness :
    fetch (fun k m => "H." ++ k ++ "." ++ m) 1000 "s" 300000
      ⟨some "a=1&flag", fun _ => none⟩ = .panicked :=
  C9_query_component_without_eq_panics (fun k m => "H." ++ k ++ "." ++ m)
    1000 300000 "s" ⟨some "a=1&flag", fun _ => none⟩ "flag"
    (by with_unfolding_all decide) (by with_unfolding_all decide)
    (by with_unfolding_all decide)

/-- C7 counterexample: a request whose URL has no query string at all has
no `function_id` parameter, yet the handler panics on parsing the (empty)
query instead of forwarding the request unchanged. -/
theorem C7_counterexample :
    fetch (fun k m => "H." ++ k ++ "." ++ m) 1000 "s" 300000
      ⟨none, fun _ => none⟩ = .panicked
    ∧ FetchOutcome.panicked ≠ .forwardOriginal := by
  refine ⟨?_, by decide⟩
  with_unfolding_all decide

/-- C7 amended: provided the secret is non-empty and every `&`-component
of the query contains `=` (so the pair parse succeeds — otherwise the
handler panics before classifying), a request whose `function_id`
parameter is absent or differs from `APPS_LOGIN_DEFAULT` is forwarded as
the untouched original request, skipping the whole HMAC pipeline. -/
theorem C7_non_login_bypass (hmacB64 : String → String → String)
    (now validity : ℚ) (secret : String) (req : ReqModel)
    (m : List (String × String))
    (hsec : secret ≠ "")
    (hq : parseQueryPairs (req.rawQuery.getD "") = some m)
    (hfn : qLookup m "function_id" = none ∨
      ∃ v, qLookup m "function_id" = some v ∧ v ≠ "APPS_LOGIN_DEFAULT") :
    fetch hmacB64 now secret validity req = .forwardOriginal := by
  unfold fetch
  rw [if_neg hsec]
  simp only [hq]
  rcases hfn with hnone | ⟨v, hv, hne⟩
  · simp only [hnone]
  · simp only [hv, if_neg hne]

/-- C7 amended witness: `function_id=OTHER` is forwarded unchanged. -/
theorem C7_non_login_bypass_witness :
    fetch (fun k m => "H." ++ k ++ "." ++ m) 1000 "s" 300000
      ⟨some "function_id=OTHER&oait=x", fun _ => none⟩ = .forwardOriginal :=
  C7_non_login_bypass (fun k m => "H." ++ k ++ "." ++ m) 1000 300000 "s"
    ⟨some "function_id=OTHER&oait=x", fun _ => none⟩
    [("function_id", "OTHER"), ("oait", "x")]
    (by with_unfolding_all decide) (by with_unfolding_all decide)
    (Or.inr ⟨"OTHER", by with_unfolding_all decide, by decide⟩)

/-- C4 counterexample: a login request with no `oait` parameter makes the
handler propagate an error (`ok_or_else(|| "")?`), which is not a locally
built 400 response with fixed error text. -/
theorem C4_counterexample :
    fetch (fun k m => "H." ++ k ++ "." ++ m) 1000 "s" 300000
      ⟨some "function_id=APPS_LOGIN_DEFAULT", fun _ => none⟩ = .errored ""
    ∧ ∀ body, FetchOutcome.errored "" ≠ .response 400 body := by
  refine ⟨?_, fun body => by simp⟩
  with_unfolding_all decide

/-- C4 amended: for a login request (non-empty secret, query parsed), a
present-but-empty `oait` yields the local 400 response with the fixed text
`Missing oait parameter` and no forwarding, while an absent `oait` makes
the handler fail with a propagated error (no response is built and no
forwarding occurs either). -/
theorem C4_missing_or_empty_oait (hmacB64 : String → String → String)
    (now validity : ℚ) (secret : String) (req : ReqModel)
    (m : List (String × String))
    (hsec : secret ≠ "")
    (hq : parseQueryPairs (req.rawQuery.getD "") = some m)
    (hfn : qLookup m "function_id" = some "APPS_LOGIN_DEFAULT") :
    (qLookup m "oait" = none →
      fetch hmacB64 now secret validity req = .errored "")
    ∧ (qLookup m "oait" = some "" →
      fetch hmacB64 now secret validity req
        = .response 400 "Missing oait parameter") := by
  constructor
  · intro hnone
    unfold fetch
    rw [if_neg hsec]
    simp [hq, hfn, hnone]
  · intro hempty
    unfold fetch
    rw [if_neg hsec]
    simp [hq, hfn, hempty]

/-- C4 amended witness: concrete absent and empty `oait` runs. -/
theorem C4_missing_or_empty_oait_witness :
    fetch (fun k m => "H." ++ k ++ "." ++ m) 1000 "s" 300000
      ⟨some "function_id=APPS_LOGIN_DEFAULT", fun _ => none⟩ = .errored ""
    ∧ fetch (fun k m => "H." ++ k ++ "." ++ m) 1000 "s" 300000
      ⟨some "function_id=APPS_LOGIN_DEFAULT&oait=", fun _ => none⟩
      = .response 400 "Missing oait parameter" :=
  ⟨(C4_missing_or_empty_oait (fun k m => "H." ++ k ++ "." ++ m) 1000 300000
      "s" ⟨some "function_id=APPS_LOGIN_DEFAULT", fun _ => none⟩
      [("function_id", "APPS_LOGIN_DEFAULT")]
      (by with_unfolding_all decide) (by with_unfolding_all decide)
      (by with_unfolding_all decide)).1 (by with_unfolding_all decide),
   (C4_missing_or_empty_oait (fun k m => "H." ++ k ++ "." ++ m) 1000 300000
      "s" ⟨some "function_id=APPS_LOGIN_DEFAULT&oait=", fun _ => none⟩
      [("function_id", "APPS_LOGIN_DEFAULT"), ("oait", "")]
      (by with_unfolding_all decide) (by with_unfolding_all decide)
      (by with_unfolding_all decide)).2 (by with_unfolding_all decide)⟩

/-- Auxiliary: the string `app` has no `-` separator, so as a proof token
it always fails verification, whatever the IP, secret, time or window. -/
theorem verifyAppIsFalse (hmacB64 : String → String → String)
    (now validity : ℚ) (ip secret : String) :
    verify_hmac_token hmacB64 now ip "app" secret validity = false := by
  unfold verify_hmac_token
  rw [show "app".splitOn "-" = ["app"] from by with_unfolding_all decide]
  simp

/-- C3 counterexample: the composite token `++app` splits on `++` into the
two parts `["", "app"]` — not fewer than 2 — so it passes the format
check, and the request is rejected with 403 body `Invalid or expired
token`, not `Invalid token format`. -/
theorem C3_counterexample :
    ("++app".splitOn "++").length = 2
    ∧ fetch (fun k m => "H." ++ k ++ "." ++ m) 1000 "s" 300000
      ⟨some "function_id=APPS_LOGIN_DEFAULT&oait=++app", fun _ => none⟩
      = .response 403 "Invalid or expired token"
    ∧ FetchOutcome.response 403 "Invalid or expired token"
      ≠ .response 403 "Invalid token format" := by
  refine ⟨by with_unfolding_all decide, ?_, by decide⟩
  with_unfolding_all decide

/-- C3 amended: for every login request carrying the composite token
`++app` (non-empty secret, query parsed), the token has exactly two
`++`-separated parts (`""` and `"app"`), so it passes the format check;
its proof part `app` then fails verification for lack of a `-` separator,
and the request is rejected with 403 `Invalid or expired token` — no
forwarding occurs. -/
theorem C3_plusplus_app_rejected (hmacB64 : String → String → String)
    (now validity : ℚ) (secret : String) (req : ReqModel)
    (m : List (String × String))
    (hsec : secret ≠ "")
    (hq : parseQueryPairs (req.rawQuery.getD "") = some m)
    (hfn : qLookup m "function_id" = some "APPS_LOGIN_DEFAULT")
    (hoait : qLookup m "oait" = some "++app") :
    fetch hmacB64 now secret validity req
      = .response 403 "Invalid or expired token" := by
  unfold fetch
  rw [if_neg hsec]
  simp [hq, hfn, hoait,
    show "++app".splitOn "++" = ["", "app"] from by with_unfolding_all decide,
    show "app".trim = "app" from by with_unfolding_all decide,
    List.getD, verifyAppIsFalse]

/-- C3 amended witness: the concrete `++app` login request. -/
theorem C3_plusplus_app_rejected_witness :
    fetch (fun k m => "H." ++ k ++ "." ++ m) 1000 "s" 300000
      ⟨some "function_id=APPS_LOGIN_DEFAULT&oait=++app", fun _ => none⟩
      = .response 403 "Invalid or expired token" :=
  C3_plusplus_app_rejected (fun k m => "H." ++ k ++ "." ++ m) 1000 300000
    "s" ⟨some "function_id=APPS_LOGIN_DEFAULT&oait=++app", fun _ => none⟩
    [("function_id", "APPS_LOGIN_DEFAULT"), ("oait", "++app")]
    (by with_unfolding_all decide) (by with_unfolding_all decide)
    (by with_unfolding_all decide) (by with_unfolding_all decide)

/-- C8 counterexample: with `CF-Connecting-IP` present but empty and
`X-Forwarded-For` set to `1.2.3.4`, `extract_client_ip` returns the empty
direct-connection value — the claimed "present and non-empty" guard does
not exist, so the forwarded-for header is not consulted. -/
theorem C8_counterexample :
    extract_client_ip (fun h =>
      if h = "CF-Connecting-IP" then some ""
      else if h = "X-Forwarded-For" then some "1.2.3.4" else none) = ""
    ∧ ("" : String) ≠ "1.2.3.4" := by
  refine ⟨?_, by decide⟩
  with_unfolding_all decide

/-- C8 amended: `extract_client_ip` is first-match-wins with presence
alone deciding the first step: it returns the `CF-Connecting-IP` value
whenever that header is present — even when the value is empty — else the
first comma-separated entry of `X-Forwarded-For` trimmed of surrounding
whitespace when that header is present, else the fixed fallback
`127.0.0.1`. -/
theorem C8_client_ip_precedence (headers : String → Option String) :
    (∀ v, headers "CF-Connecting-IP" = some v →
      extract_client_ip headers = v)
    ∧ (headers "CF-Connecting-IP" = none →
      ∀ xff, headers "X-Forwarded-For" = some xff →
        extract_client_ip headers = ((xff.splitOn ",").headD "").trim)
    ∧ (headers "CF-Connecting-IP" = none →
      headers "X-Forwarded-For" = none →
        extract_client_ip headers = "127.0.0.1") := by
  refine ⟨?_, ?_, ?_⟩
  · intro v hv
    unfold extract_client_ip
    rw [hv]
  · intro hcf xff hxff
    unfold extract_client_ip
    rw [hcf, hxff]
  · intro hcf hxff
    unfold extract_client_ip
    rw [hcf, hxff]

/-- C8 amended witness: the three branches at concrete headers. -/
theorem C8_client_ip_precedence_witness :
    extract_client_ip (fun h =>
      if h = "CF-Connecting-IP" then some "9.9.9.9" else none) = "9.9.9.9"
    ∧ extract_client_ip (fun h =>
      if h = "X-Forwarded-For" then some " 1.2.3.4 , 5.6.7.8" else none)
      = "1.2.3.4"
    ∧ extract_client_ip (fun _ => none) = "127.0.0.1" :=
  ⟨(C8_client_ip_precedence (fun h =>
      if h = "CF-Connecting-IP" then some "9.9.9.9" else none)).1
      "9.9.9.9" (by with_unfolding_all decide),
   Trans.trans
    ((C8_client_ip_precedence (fun h =>
      if h = "X-Forwarded-For" then some " 1.2.3.4 , 5.6.7.8" else none)).2.1
      (by with_unfolding_all decide) " 1.2.3.4 , 5.6.7.8"
      (by with_unfolding_all decide))
    (by with_unfolding_all decide),
   (C8_client_ip_precedence (fun _ => none)).2.2 rfl rfl⟩

/-- C10: the expected digest is computed over the re-serialization of the
parsed timestamp, not over the submitted substring.  Two proof tokens
whose timestamp parts parse to the same value (such as `1000`, `1000.0`
and `1e3`) verify identically, and an accepted token is one whose digest
part agrees byte-for-byte with the digest of
`<clientIP>:<Display form of the parsed value>`. -/
theorem C10_digest_over_reserialized_timestamp
    (hmacB64 : String → String → String) (now ts validity : ℚ)
    (ip secret s1 s2 hsh : String)
    (hs1 : (s1 ++ "-" ++ hsh).splitOn "-" = [s1, hsh])
    (hs2 : (s2 ++ "-" ++ hsh).splitOn "-" = [s2, hsh])
    (hp1 : parseF64 s1 = some ts)
    (hp2 : parseF64 s2 = some ts) :
    verify_hmac_token hmacB64 now ip (s1 ++ "-" ++ hsh) secret validity
      = verify_hmac_token hmacB64 now ip (s2 ++ "-" ++ hsh) secret validity
    ∧ (verify_hmac_token hmacB64 now ip (s1 ++ "-" ++ hsh) secret validity
        = true →
      strBytes hsh
        = strBytes (hmacB64 secret (ip ++ ":" ++ ratDisplay ts))) := by
  constructor
  · unfold verify_hmac_token
    rw [hs1, hs2]
    simp only [List.headD_cons, List.getD_cons_succ, List.getD_cons_zero,
      hp1, hp2, List.length_cons, List.length_nil]
  · intro hacc
    unfold verify_hmac_token at hacc
    rw [hs1] at hacc
    simp only [hp1, List.length_cons, List.length_nil, List.headD_cons] at hacc
    rw [if_neg (by decide)] at hacc
    by_cases hwin : now - ts > validity
    · rw [if_pos hwin] at hacc
      exact absurd hacc (by simp)
    · rw [if_neg hwin] at hacc
      exact ((constantTimeCompareTrueIff _ _).mp hacc).symm

/-- C10 witness: `1000` and `1e3` parse to the same value, so the two
spellings verify identically at every stage of the pipeline. -/
theorem C10_digest_over_reserialized_timestamp_witness :
    verify_hmac_token (fun k m => "H." ++ k ++ "." ++ m) 1000 "a"
      "1000-H.k.a:1000" "k" 300000
      = verify_hmac_token (fun k m => "H." ++ k ++ "." ++ m) 1000 "a"
        "1e3-H.k.a:1000" "k" 300000
    ∧ (verify_hmac_token (fun k m => "H." ++ k ++ "." ++ m) 1000 "a"
        "1000-H.k.a:1000" "k" 300000 = true →
      strBytes "H.k.a:1000"
        = strBytes ((fun k m => "H." ++ k ++ "." ++ m) "k"
            ("a" ++ ":" ++ ratDisplay 1000))) :=
  C10_digest_over_reserialized_timestamp (fun k m => "H." ++ k ++ "." ++ m)
    1000 1000 300000 "a" "k" "1000" "1e3" "H.k.a:1000"
    (by with_unfolding_all decide) (by with_unfolding_all decide)
    (by with_unfolding_all decide) (by with_unfolding_all decide)

/-- C6 counterexample: the spec's example query
`?function_id=APPS_LOGIN_DEFAULT&oait=proof++app++access&x=1` is never
forwarded at all: the code takes segment 1 (`app`) as the proof token, and
`app` has no `-` separator, so verification fails and the handler answers
403 — the example's promised forward with `oait=app` cannot happen (the
re-appended application token is segment 0, `proof`). -/
theorem C6_counterexample :
    fetch (fun k m => "H." ++ k ++ "." ++ m) 1000 "s" 300000
      ⟨some "function_id=APPS_LOGIN_DEFAULT&oait=proof++app++access&x=1",
       fun _ => none⟩
      = .response 403 "Invalid or expired token"
    ∧ ∀ qs cookie, FetchOutcome.response 403 "Invalid or expired token"
        ≠ .forwardRewritten qs cookie := by
  refine ⟨?_, fun qs cookie => by simp⟩
  with_unfolding_all decide

/-- C6 amended: for every verified login request the rewriter keeps
exactly the original non-`oait` query pairs and re-appends `oait` with the
FIRST `++`-segment of the composite token (the application token, which in
`proof++app++access` is `proof`, not `app`) if and only if that segment is
non-empty; the spec's concrete example instead fails verification
(segment 1, `app`, is not a valid proof token) and is rejected 403. -/
theorem C6_rewriter_membership (hmacB64 : String → String → String)
    (now validity : ℚ) (secret : String) (req : ReqModel)
    (m : List (String × String)) (oait : String)
    (hsec : secret ≠ "")
    (hq : parseQueryPairs (req.rawQuery.getD "") = some m)
    (hfn : qLookup m "function_id" = some "APPS_LOGIN_DEFAULT")
    (hoait : qLookup m "oait" = some oait) (hne : oait ≠ "")
    (hlen : ¬ (oait.splitOn "++").length < 2)
    (hver : verify_hmac_token hmacB64 now (extract_client_ip req.headers)
      (((oait.splitOn "++").getD 1 "").trim) secret validity = true) :
    ∃ qs cookie,
      fetch hmacB64 now secret validity req = .forwardRewritten qs cookie
      ∧ ∀ kv : String × String, kv ∈ qs ↔
          ((kv ∈ m ∧ kv.1 ≠ "oait") ∨
           (kv.1 = "oait" ∧ kv.2 = (oait.splitOn "++").headD ""
             ∧ (oait.splitOn "++").headD "" ≠ "")) := by
  have hfetch : fetch hmacB64 now secret validity req = .forwardRewritten
      (m.filter (fun p => p.1 ≠ "oait") ++
        (if (oait.splitOn "++").headD "" = "" then []
         else [("oait", (oait.splitOn "++").headD "")]))
      (if (oait.splitOn "++").getD 2 "" = "" then none
       else some ("CF_Authorization=" ++ (oait.splitOn "++").getD 2 ""
         ++ "; Path=/; HttpOnly; Secure; SameSite=Strict")) := by
    unfold fetch
    rw [if_neg hsec]
    simp only [hq, hfn, hoait, if_neg hne, if_neg hlen, hver, if_pos rfl,
      if_true]
  refine ⟨_, _, hfetch, ?_⟩
  intro kv
  rw [List.mem_append, List.mem_filter]
  by_cases hforms : (oait.splitOn "++").headD "" = ""
  · rw [if_pos hforms, hforms]
    simp [decide_eq_true_eq]
  · rw [if_neg hforms]
    simp only [List.mem_singleton, decide_eq_true_eq]
    constructor
    · rintro (⟨hm, hk⟩ | rfl)
      · exact Or.inl ⟨hm, hk⟩
      · exact Or.inr ⟨rfl, rfl, hforms⟩
    · rintro (⟨hm, hk⟩ | ⟨h1, h2, -⟩)
      · exact Or.inl ⟨hm, hk⟩
      · refine Or.inr ?_
        cases kv
        simp only at h1 h2
        rw [h1, h2]

/-- C6 amended witness: a login request with the valid composite token
`app++1000-H.s.127.0.0.1:1000++acc` and an extra pair `x=1` forwards with
the non-`oait` pairs kept and `oait` re-set to the application token. -/
theorem C6_rewriter_membership_witness :
    ∃ qs cookie,
      fetch (fun k m => "H." ++ k ++ "." ++ m) 1000 "s" 300000
        ⟨some
          "function_id=APPS_LOGIN_DEFAULT&oait=app++1000-H.s.127.0.0.1:1000++acc&x=1",
         fun _ => none⟩
        = .forwardRewritten qs cookie
      ∧ ∀ kv : String × String, kv ∈ qs ↔
          ((kv ∈ [("function_id", "APPS_LOGIN_DEFAULT"),
              ("oait", "app++1000-H.s.127.0.0.1:1000++acc"), ("x", "1")]
            ∧ kv.1 ≠ "oait") ∨
           (kv.1 = "oait"
             ∧ kv.2 = ("app++1000-H.s.127.0.0.1:1000++acc".splitOn
                 "++").headD ""
             ∧ ("app++1000-H.s.127.0.0.1:1000++acc".splitOn "++").headD ""
               ≠ "")) :=
  C6_rewriter_membership (fun k m => "H." ++ k ++ "." ++ m) 1000 300000 "s"
    ⟨some
      "function_id=APPS_LOGIN_DEFAULT&oait=app++1000-H.s.127.0.0.1:1000++acc&x=1",
     fun _ => none⟩
    [("function_id", "APPS_LOGIN_DEFAULT"),
     ("oait", "app++1000-H.s.127.0.0.1:1000++acc"), ("x", "1")]
    "app++1000-H.s.127.0.0.1:1000++acc"
    (by with_unfolding_all decide) (by with_unfolding_all decide)
    (by with_unfolding_all decide) (by with_unfolding_all decide)
    (by with_unfolding_all decide) (by with_unfolding_all decide)
    (by with_unfolding_all decide)
